import Mathlib

/-!
Verification of typez: `option.Option` and `result.Result`

A shallow embedding of `option/option.go` and `result/result.go`, followed by
theorems about their constructors, predicates, accessors and JSON hooks.

Modelling conventions:

* a Go pointer `*T` is a `Ptr T`: `none` is the nil pointer, `some v` a pointer
  to a cell holding `v` (the code never writes through a pointer, so aliasing
  plays no role);
* a Go `error` interface value is an `error`: `none` is nil, `some e` a non-nil
  error `e : GoError` whose method `Error()` gives its message. Equality of
  `GoError` is structural (dynamic type and message); pointer identity of two
  `errors.New` results is not tracked;
* a Go `string` is a `string`: a sequence of bytes, valid UTF-8 or not. A Lean
  string literal used as a `string` stands for its UTF-8 bytes;
* a function that can panic returns `Except Panic _`;
* a method with a pointer receiver that assigns to the receiver returns the
  receiver's new state next to its Go result;
* `encoding/json` is not part of the repository. The wire is a `Json` tree
  (what the lexer of the package yields: a `Json.str` holds the unquoted
  content of a string literal), the payload type comes with a `Codec` whose
  encoder can fail, and `json.Marshal` / `json.Unmarshal` are modelled for the
  two wrapper structs from their field tags and the documented behaviour of the
  package: a result of `([]byte, error)` is an `Except GoError Json`.
-/

/-! ## Go runtime model -/

/-- Go `byte`. -/
abbrev byte := Fin 256

/-- Go `string`: a sequence of bytes, not necessarily valid UTF-8. -/
structure string where
  bytes : List byte
deriving DecidableEq

/-- The Go string written as a literal: the UTF-8 encoding of the text. -/
def string.lit (text : String) : string :=
  { bytes := (text.data.flatMap String.utf8EncodeChar).map (fun b => b.val) }

instance : Coe String string := ⟨string.lit⟩

/-- Go string concatenation `a + b`. -/
def string.append (a b : string) : string :=
  { bytes := a.bytes ++ b.bytes }

instance : Append string := ⟨string.append⟩

/-- Go pointer `*T`: `none` is nil. -/
abbrev Ptr (T : Type) := Option T

/-- What a panicking call carries: the argument of `panic(...)`, or the runtime
error of dereferencing a nil pointer. -/
inductive Panic where
  | msg (s : string)
  | nilDeref
deriving DecidableEq

/-- A non-nil Go error value: `errorString s` is what `errors.New(s)` returns;
`other typ m` is a value of any other dynamic type `typ` whose `Error()` is `m`. -/
inductive GoError where
  | errorString (s : string)
  | other (typ : string) (m : string)
deriving DecidableEq

/-- The `Error() string` method of the `error` interface. -/
def GoError.Error : GoError → string
  | .errorString s => s
  | .other _ m => m

/-- Go `error` interface value: `none` is nil. -/
abbrev error := Option GoError

/-- Go `errors.New`. -/
def errors.New (text : string) : GoError := GoError.errorString text

/-! ## UTF-8, as `unicode/utf8` decodes it -/

/-- Continuation byte `10xxxxxx`. -/
def utf8.isCont (b : byte) : Bool :=
  decide (0x80 ≤ b.val) && decide (b.val ≤ 0xBF)

/-- Range accepted for the second byte after the leading byte `b0` of a three
or four byte sequence: it excludes overlong forms, surrogates and code points
above U+10FFFF. -/
def utf8.second (b0 b1 : byte) : Bool :=
  if b0.val = 0xE0 then decide (0xA0 ≤ b1.val) && decide (b1.val ≤ 0xBF)
  else if b0.val = 0xED then decide (0x80 ≤ b1.val) && decide (b1.val ≤ 0x9F)
  else if b0.val = 0xF0 then decide (0x90 ≤ b1.val) && decide (b1.val ≤ 0xBF)
  else if b0.val = 0xF4 then decide (0x80 ≤ b1.val) && decide (b1.val ≤ 0x8F)
  else utf8.isCont b1

/-- Width of the rune that `utf8.DecodeRune` reads at the head of the bytes when
the encoding there is valid, and 0 when it is not (where `DecodeRune` returns
`RuneError` with width 1) or when there are no bytes. -/
def utf8.runeLen : List byte → Nat
  | [] => 0
  | b0 :: rest =>
    if b0.val < 0x80 then 1
    else if 0xC2 ≤ b0.val ∧ b0.val ≤ 0xDF then
      match rest with
      | b1 :: _ => if utf8.isCont b1 then 2 else 0
      | _ => 0
    else if 0xE0 ≤ b0.val ∧ b0.val ≤ 0xEF then
      match rest with
      | b1 :: b2 :: _ => if utf8.second b0 b1 && utf8.isCont b2 then 3 else 0
      | _ => 0
    else if 0xF0 ≤ b0.val ∧ b0.val ≤ 0xF4 then
      match rest with
      | b1 :: b2 :: b3 :: _ =>
        if utf8.second b0 b1 && utf8.isCont b2 && utf8.isCont b3 then 4 else 0
      | _ => 0
    else 0

/-- Scan of `utf8.Valid`: `inside` counts the bytes still to skip of the rune
being read. -/
def utf8.validFrom : Nat → List byte → Bool
  | _, [] => true
  | k + 1, _ :: rest => utf8.validFrom k rest
  | 0, b :: rest =>
    match utf8.runeLen (b :: rest) with
    | 0 => false
    | n + 1 => utf8.validFrom n rest

/-- Go `utf8.ValidString`. -/
def utf8.ValidString (s : string) : Bool :=
  utf8.validFrom 0 s.bytes

/-! ## Model of `encoding/json` -/

/-- JSON values as trees (numbers restricted to integers). The key/value pairs
of an object are kept in wire order. -/
inductive Json where
  | null
  | bool (b : Bool)
  | num (n : Int)
  | str (s : string)
  | arr (xs : List Json)
  | obj (kvs : List (string × Json))

/-- How the payload type `T` is encoded and decoded by `encoding/json`; the
encoder fails on a payload the package does not support (a channel, a
function, a NaN). -/
structure Codec (T : Type) where
  enc : T → Except GoError Json
  dec : Json → Except GoError T

/-- The error `json.Unmarshal` reports when a JSON value does not fit the Go
type it is decoded into. -/
def json.unmarshalTypeError : GoError :=
  GoError.other "*json.UnmarshalTypeError" "json: cannot unmarshal value into Go value"

/-- The error `json.Marshal` reports for a value of the type named `typ`, which
it cannot encode. -/
def json.unsupportedTypeError (typ : string) : GoError :=
  GoError.other "*json.UnsupportedTypeError" (("json: unsupported type: " : string) ++ typ)

/-- The string encoder of `json.Marshal` on the bytes of a Go string: a valid
rune is kept and every byte at which decoding fails becomes U+FFFD (the bytes
EF BF BD). `inside` counts the bytes still to copy of the rune being read. -/
def json.coerceFrom : Nat → List byte → List byte
  | _, [] => []
  | k + 1, b :: rest => b :: json.coerceFrom k rest
  | 0, b :: rest =>
    match utf8.runeLen (b :: rest) with
    | 0 => 0xEF :: 0xBF :: 0xBD :: json.coerceFrom 0 rest
    | n + 1 => b :: json.coerceFrom n rest

/-- The content of the JSON string that `json.Marshal` writes for a Go
string. -/
def json.coerceUTF8 (s : string) : string :=
  { bytes := json.coerceFrom 0 s.bytes }

/-- ASCII case folding of one byte. -/
def json.foldByte (b : byte) : byte :=
  if 65 ≤ b.val ∧ b.val ≤ 90 then b + 32 else b

/-- Field lookup of `json.Unmarshal`: a key selects the struct field whose name
it equals up to letter case. For the lower-case names "value" and "error" the
case folding of the package coincides with ASCII folding of the bytes. -/
def json.keyIs (key : string) (name : string) : Bool :=
  key.bytes.map json.foldByte == name.bytes

/-- The decoder keeps the first type error it meets and goes on (`saveError`). -/
def json.saveError (saved : error) (e : GoError) : error :=
  match saved with
  | some s => some s
  | none => some e

/-- The value a wire object gives for the struct field `name`: that of the first
pair whose key selects the field. -/
def Json.field (name : string) : List (string × Json) → Option Json
  | [] => none
  | kv :: rest => if json.keyIs kv.1 name then some kv.2 else Json.field name rest

/-- How many pairs of a wire object select the struct field `name`. -/
def Json.count (name : string) : List (string × Json) → Nat
  | [] => 0
  | kv :: rest => (if json.keyIs kv.1 name then 1 else 0) + Json.count name rest

/-! ## Package `option` -/

namespace option

/-- Go `type Option[T any] struct { val *T }`. -/
structure Option (T : Type) where
  val : Ptr T := none
deriving DecidableEq

/-- Go `type optionWrap[T any] struct { Value *T "json:value,omitempty" }`. -/
structure optionWrap (T : Type) where
  Value : Ptr T := none
deriving DecidableEq

variable {T : Type}

/-- Go `Some`. -/
def Some (value : T) : Option T :=
  { val := some value }

/-- Go `None`. -/
def None : Option T :=
  { val := none }

/-- Go `(*Option).IsSome`. -/
def Option.IsSome (o : Option T) : Bool :=
  o.val.isSome

/-- Go `(*Option).IsSomeAnd`; the callback may itself panic. -/
def Option.IsSomeAnd (o : Option T) (and : T → Except Panic Bool) : Except Panic Bool :=
  if o.IsSome then
    match o.val with
    | some v => and v
    | none => .error Panic.nilDeref
  else
    .ok false

/-- Go `(*Option).IsNone`. -/
def Option.IsNone (o : Option T) : Bool :=
  o.val.isNone

/-- Go `(*Option).IsNoneAnd`; the callback may itself panic. -/
def Option.IsNoneAnd (o : Option T) (and : Unit → Except Panic Bool) : Except Panic Bool :=
  if o.IsNone then and () else .ok false

/-- Go `(*Option).Value`. -/
def Option.Value (o : Option T) : Except Panic T :=
  if o.IsNone then
    .error (Panic.msg "can't unwrap none value")
  else
    match o.val with
    | some v => .ok v
    | none => .error Panic.nilDeref

/-- Go `(*Option).ValueOr`. -/
def Option.ValueOr (o : Option T) (or : T) : Except Panic T :=
  if o.IsNone then
    .ok or
  else
    match o.val with
    | some v => .ok v
    | none => .error Panic.nilDeref

/-- Go `(*Option).ValueOrElse`; the callback may itself panic. -/
def Option.ValueOrElse (o : Option T) (or : Unit → Except Panic T) : Except Panic T :=
  if o.IsNone then
    or ()
  else
    match o.val with
    | some v => .ok v
    | none => .error Panic.nilDeref

/-- Go `(*Option).ValueOrDefault`; `zero` is `*new(T)`. -/
def Option.ValueOrDefault (zero : T) (o : Option T) : Except Panic T :=
  if o.IsNone then
    .ok zero
  else
    match o.val with
    | some v => .ok v
    | none => .error Panic.nilDeref

/-- Go `Option.String`; `fmtV` is the `%v` rendering of `T`. -/
def Option.String (fmtV : T → string) (o : Option T) : Except Panic string :=
  if o.IsSome then
    match o.val with
    | some v => .ok ("Some: " ++ fmtV v)
    | none => .error Panic.nilDeref
  else
    .ok "None"

/-- Go `Option.wrap`. -/
def Option.wrap (o : Option T) : optionWrap T :=
  { Value := o.val }

/-- Go `(*Option).unwrap`: the new receiver and the returned error. -/
def Option.unwrap (o : Option T) (opt : optionWrap T) (err : error) : Option T × error :=
  if err.isSome then
    (o, err)
  else
    ({ o with val := opt.Value }, none)

/-- Model of `json.Marshal` on an `optionWrap`: the pointer field tagged
`omitempty` is left out when nil and otherwise holds the encoding of its
pointee; when the pointee cannot be encoded the error is returned and no
bytes. -/
def optionWrap.marshal (c : Codec T) (w : optionWrap T) : Except GoError Json :=
  match w.Value with
  | none => .ok (Json.obj [])
  | some v =>
    match c.enc v with
    | .ok j => .ok (Json.obj [("value", j)])
    | .error e => .error e

/-- One key/value pair of an object decoded into an `optionWrap`: `null` sets
the pointer field to nil, any other value is decoded into a new pointee, a key
that names no field is skipped. -/
def optionWrap.decodeField (c : Codec T) (st : optionWrap T × error)
    (kv : string × Json) : optionWrap T × error :=
  if json.keyIs kv.1 "value" then
    match kv.2 with
    | Json.null => ({ st.1 with Value := none }, st.2)
    | j =>
      match c.dec j with
      | .ok v => ({ st.1 with Value := some v }, st.2)
      | .error e => (st.1, json.saveError st.2 e)
  else
    st

/-- Model of `json.Unmarshal(data, opt)` for an `optionWrap`: `null` is a no-op, an
object is decoded pair by pair, anything else is a type error. -/
def optionWrap.unmarshal (c : Codec T) (data : Json) (opt : optionWrap T) :
    optionWrap T × error :=
  match data with
  | Json.null => (opt, none)
  | Json.obj kvs => kvs.foldl (optionWrap.decodeField c) (opt, none)
  | _ => (opt, some json.unmarshalTypeError)

/-- Go `Option.MarshalJSON`. -/
def Option.MarshalJSON (c : Codec T) (o : Option T) : Except GoError Json :=
  optionWrap.marshal c o.wrap

/-- Go `(*Option).UnmarshalJSON`: the new receiver and the returned error. -/
def Option.UnmarshalJSON (c : Codec T) (o : Option T) (data : Json) : Option T × error :=
  let res : optionWrap T := {}
  let p := optionWrap.unmarshal c data res
  o.unwrap p.1 p.2

end option

/-! ## Package `result` -/

namespace result

/-- Go `var ErrNoValueError = errors.New("no value or error parsed")`. -/
def ErrNoValueError : GoError := errors.New "no value or error parsed"

/-- Go `type Result[T any] struct { val *T; err error }`. -/
structure Result (T : Type) where
  val : Ptr T := none
  err : error := none
deriving DecidableEq

/-- Go `type resultWrap[T any] struct`, fields `Value *T "json:value,omitempty"`
and `Error string "json:error,omitempty"`. -/
structure resultWrap (T : Type) where
  Value : Ptr T := none
  Error : string := ""
deriving DecidableEq

variable {T : Type}

/-- Go `Ok`. -/
def Ok (value : T) : Result T :=
  { val := some value, err := none }

/-- Go `Err`: panics on a nil error. -/
def Err (err : error) : Except Panic (Result T) :=
  if err.isNone then
    .error (Panic.msg "error can't be nil")
  else
    .ok { val := none, err := err }

/-- Go `AsResult`. -/
def AsResult (value : T) (err : error) : Except Panic (Result T) :=
  if err.isSome then
    Err err
  else
    .ok (Ok value)

/-- Go `(*Result).IsOk`. -/
def Result.IsOk (r : Result T) : Bool :=
  r.val.isSome && r.err.isNone

/-- Go `(*Result).IsOkAnd`; the callback may itself panic. -/
def Result.IsOkAnd (r : Result T) (and : T → Except Panic Bool) : Except Panic Bool :=
  if r.IsOk then
    match r.val with
    | some v => and v
    | none => .error Panic.nilDeref
  else
    .ok false

/-- Go `(*Result).IsErr`. -/
def Result.IsErr (r : Result T) : Bool :=
  r.val.isNone && r.err.isSome

/-- Go `(*Result).IsErrAnd`; the callback may itself panic. -/
def Result.IsErrAnd (r : Result T) (and : error → Except Panic Bool) : Except Panic Bool :=
  if r.IsErr then and r.err else .ok false

/-- Go `(*Result).Error`. -/
def Result.Error (r : Result T) : Except Panic error :=
  if r.IsOk then
    .error (Panic.msg "can't unwrap error in the result with a value")
  else
    .ok r.err

/-- Go `(*Result).Value`. -/
def Result.Value (r : Result T) : Except Panic T :=
  if r.IsErr then
    .error (Panic.msg "can't unwrap value in the result with an error")
  else
    match r.val with
    | some v => .ok v
    | none => .error Panic.nilDeref

/-- Go `(*Result).ValueOr`. -/
def Result.ValueOr (r : Result T) (or : T) : Except Panic T :=
  if r.IsErr then
    .ok or
  else
    match r.val with
    | some v => .ok v
    | none => .error Panic.nilDeref

/-- Go `(*Result).ValueOrElse`; the callback may itself panic. -/
def Result.ValueOrElse (r : Result T) (or : Unit → Except Panic T) : Except Panic T :=
  if r.IsErr then
    or ()
  else
    match r.val with
    | some v => .ok v
    | none => .error Panic.nilDeref

/-- Go `(*Result).ValueOrDefault`; `zero` is `*new(T)`. -/
def Result.ValueOrDefault (zero : T) (r : Result T) : Except Panic T :=
  if r.IsErr then
    .ok zero
  else
    match r.val with
    | some v => .ok v
    | none => .error Panic.nilDeref

/-- Go `Result.String`; `fmtV` is the `%v` rendering of `T`, and `%v` of an
error is its message, of a nil error the text `<nil>`. -/
def Result.String (fmtV : T → string) (r : Result T) : Except Panic string :=
  if r.IsOk then
    match r.val with
    | some v => .ok ("Value: " ++ fmtV v)
    | none => .error Panic.nilDeref
  else
    match r.err with
    | some e => .ok ("Error: " ++ e.Error)
    | none => .ok "Error: <nil>"

/-- Go `Result.wrap`. -/
def Result.wrap (r : Result T) : resultWrap T :=
  let err : string :=
    match r.err with
    | some e => e.Error
    | none => ""
  { Value := r.val, Error := err }

/-- Go `(*Result).unwrap`: the new receiver and the returned error. -/
def Result.unwrap (r : Result T) (res : resultWrap T) (err : error) : Result T × error :=
  if err.isSome then
    (r, err)
  else if res.Error ≠ "" then
    ({ r with err := some (errors.New res.Error) }, none)
  else if res.Value.isSome then
    ({ r with val := res.Value }, none)
  else
    (r, some ErrNoValueError)

/-- Model of `json.Marshal` on a `resultWrap`: both fields are tagged
`omitempty`, so the pointer field is left out when nil and the string field
when empty; the fields that remain come in declaration order, the string with
its invalid UTF-8 coerced; when the pointee cannot be encoded the error is
returned and no bytes. -/
def resultWrap.marshal (c : Codec T) (w : resultWrap T) : Except GoError Json :=
  let errField : List (string × Json) :=
    if w.Error ≠ "" then [("error", Json.str (json.coerceUTF8 w.Error))] else []
  match w.Value with
  | none => .ok (Json.obj errField)
  | some v =>
    match c.enc v with
    | .ok j => .ok (Json.obj (("value", j) :: errField))
    | .error e => .error e

/-- One key/value pair of an object decoded into a `resultWrap`. For "value",
`null` sets the pointer field to nil and any other value is decoded into a new
pointee; for "error", `null` leaves the string as it is, a JSON string is
stored and any other value is a type error; a key that names no field is
skipped. -/
def resultWrap.decodeField (c : Codec T) (st : resultWrap T × error)
    (kv : string × Json) : resultWrap T × error :=
  if json.keyIs kv.1 "value" then
    match kv.2 with
    | Json.null => ({ st.1 with Value := none }, st.2)
    | j =>
      match c.dec j with
      | .ok v => ({ st.1 with Value := some v }, st.2)
      | .error e => (st.1, json.saveError st.2 e)
  else if json.keyIs kv.1 "error" then
    match kv.2 with
    | Json.null => st
    | Json.str s => ({ st.1 with Error := s }, st.2)
    | _ => (st.1, json.saveError st.2 json.unmarshalTypeError)
  else
    st

/-- Model of `json.Unmarshal(data, res)` for a `resultWrap`: `null` is a no-op, an
object is decoded pair by pair, anything else is a type error. -/
def resultWrap.unmarshal (c : Codec T) (data : Json) (res : resultWrap T) :
    resultWrap T × error :=
  match data with
  | Json.null => (res, none)
  | Json.obj kvs => kvs.foldl (resultWrap.decodeField c) (res, none)
  | _ => (res, some json.unmarshalTypeError)

/-- Go `Result.MarshalJSON`. -/
def Result.MarshalJSON (c : Codec T) (r : Result T) : Except GoError Json :=
  resultWrap.marshal c r.wrap

/-- Go `(*Result).UnmarshalJSON`: the new receiver and the returned error. -/
def Result.UnmarshalJSON (c : Codec T) (r : Result T) (data : Json) : Result T × error :=
  let res : resultWrap T := {}
  let p := resultWrap.unmarshal c data res
  r.unwrap p.1 p.2

end result

/-! ## Payload codecs used in examples -/

/-- Codec of Go `int` payloads: a JSON number, nothing else. -/
def intCodec : Codec Int where
  enc := fun n => .ok (Json.num n)
  dec := fun j =>
    match j with
    | Json.num n => .ok n
    | _ => .error json.unmarshalTypeError

/-- Codec of Go `*int` payloads: the nil pointer is `null`, a non-nil pointer
the number it points to. -/
def intPtrCodec : Codec (Ptr Int) where
  enc := fun p =>
    match p with
    | some n => .ok (Json.num n)
    | none => .ok Json.null
  dec := fun j =>
    match j with
    | Json.null => .ok none
    | Json.num n => .ok (some n)
    | _ => .error json.unmarshalTypeError

/-- Codec of Go `string` payloads: a JSON string, with invalid UTF-8 coerced
when encoding, nothing else. -/
def stringCodec : Codec string where
  enc := fun t => .ok (Json.str (json.coerceUTF8 t))
  dec := fun j =>
    match j with
    | Json.str t => .ok t
    | _ => .error json.unmarshalTypeError

/-- A Go `chan int` value: nil, or a channel with an identity. -/
abbrev ChanInt := Ptr Nat

/-- Codec of Go `chan int` payloads: the package encodes no channel and decodes
no JSON value into one. -/
def chanCodec : Codec ChanInt where
  enc := fun _ => .error (json.unsupportedTypeError "chan int")
  dec := fun _ => .error json.unmarshalTypeError

/-- The `%v` rendering of a Go `int`: its decimal form. -/
def intFmtV (n : Int) : string := string.lit (toString n)

/-- A callback that panics whenever it is called. -/
def panicking {A B : Type} (_ : A) : Except Panic B := .error (Panic.msg "callback called")

/-- The keys of a JSON object in wire order; a value that is no object has none. -/
def Json.keys : Json → List string
  | Json.obj kvs => kvs.map Prod.fst
  | _ => []

/-! ## Helper lemmas -/

section helpers

variable {T : Type}

theorem json.keyIs_value_value : json.keyIs "value" "value" = true := by decide

theorem json.keyIs_error_value : json.keyIs "error" "value" = false := by decide

theorem json.keyIs_error_error : json.keyIs "error" "error" = true := by decide

/-- No key selects both struct fields. -/
theorem json.keyIs_value_not_error (k : string) (h : json.keyIs k "value" = true) :
    json.keyIs k "error" = false := by
  unfold json.keyIs at h ⊢
  have h1 : k.bytes.map json.foldByte = (("value" : String) : string).bytes := by
    simpa using h
  rw [h1]
  decide

/-- A valid UTF-8 byte sequence is what the string encoder writes for it. -/
theorem json.coerceFrom_valid (bs : List byte) :
    ∀ k : Nat, utf8.validFrom k bs = true → json.coerceFrom k bs = bs := by
  induction bs with
  | nil => intro k _; cases k <;> rfl
  | cons b rest ih =>
    intro k h
    cases k with
    | succ k =>
      simp only [utf8.validFrom] at h
      simp [json.coerceFrom, ih k h]
    | zero =>
      simp only [utf8.validFrom] at h
      simp only [json.coerceFrom]
      split at h
      · simp at h
      · rename_i n hn
        simp [ih n h]

/-- A valid UTF-8 string is written as it is. -/
theorem json.coerceUTF8_valid (s : string) (h : utf8.ValidString s = true) :
    json.coerceUTF8 s = s := by
  cases s with
  | mk bytes =>
    simp only [json.coerceUTF8]
    rw [json.coerceFrom_valid bytes 0 h]

/-- A payload whose encoding is not `null` and decodes to `v` is stored in the
pointer field. -/
theorem result.resultWrap.decodeField_value (c : Codec T) (st : result.resultWrap T × error)
    (j : Json) (v : T) (hj : j ≠ Json.null) (hd : c.dec j = .ok v) :
    result.resultWrap.decodeField c st ("value", j) = ({ st.1 with Value := some v }, st.2) := by
  cases j <;> simp_all [result.resultWrap.decodeField, json.keyIs_value_value]

theorem result.resultWrap.decodeField_value_null (c : Codec T)
    (st : result.resultWrap T × error) :
    result.resultWrap.decodeField c st ("value", Json.null)
      = ({ st.1 with Value := none }, st.2) := by
  simp [result.resultWrap.decodeField, json.keyIs_value_value]

theorem result.resultWrap.decodeField_error (c : Codec T) (st : result.resultWrap T × error)
    (m : string) :
    result.resultWrap.decodeField c st ("error", Json.str m)
      = ({ st.1 with Error := m }, st.2) := by
  simp [result.resultWrap.decodeField, json.keyIs_error_value, json.keyIs_error_error]

/-- With no decode error, `unwrap` returns nil or the sentinel, the latter
exactly when the wrapper holds neither an error text nor a payload. -/
theorem result.Result.unwrap_parsed (r : result.Result T) (res : result.resultWrap T) :
    ((r.unwrap res none).2 = some result.ErrNoValueError ↔ (res.Error = "" ∧ res.Value = none))
    ∧ ((r.unwrap res none).2 = none ↔ ¬ (res.Error = "" ∧ res.Value = none)) := by
  unfold result.Result.unwrap
  by_cases he : res.Error = ""
  · cases hv : res.Value <;> simp [he]
  · simp [he]

/-- Serialized form of `Ok(v)` when the payload has the encoding `j`. -/
theorem result.Result.MarshalJSON_ok (c : Codec T) (v : T) (j : Json) (hj : c.enc v = .ok j) :
    (result.Ok v).MarshalJSON c = .ok (Json.obj [("value", j)]) := by
  simp [result.Result.MarshalJSON, result.Result.wrap, result.Ok, result.resultWrap.marshal, hj]

/-- Serializing `Ok(v)` fails with the error of the payload encoder. -/
theorem result.Result.MarshalJSON_ok_error (c : Codec T) (v : T) (e : GoError)
    (he : c.enc v = .error e) :
    (result.Ok v).MarshalJSON c = .error e := by
  simp [result.Result.MarshalJSON, result.Result.wrap, result.Ok, result.resultWrap.marshal, he]

/-- Serialized form of a Fail whose message is not empty. -/
theorem result.Result.MarshalJSON_fail (c : Codec T) (e : GoError) (hmsg : e.Error ≠ "") :
    ({ val := none, err := some e } : result.Result T).MarshalJSON c
      = .ok (Json.obj [("error", Json.str (json.coerceUTF8 e.Error))]) := by
  simp [result.Result.MarshalJSON, result.Result.wrap, result.resultWrap.marshal, hmsg]

/-- Serialized form of a Fail whose message is empty. -/
theorem result.Result.MarshalJSON_fail_empty (c : Codec T) (e : GoError) (hmsg : e.Error = "") :
    ({ val := none, err := some e } : result.Result T).MarshalJSON c = .ok (Json.obj []) := by
  simp [result.Result.MarshalJSON, result.Result.wrap, result.resultWrap.marshal, hmsg]

/-- What `Err` returns on a non-nil error. -/
theorem result.Err_some (e : GoError) :
    (result.Err (some e) : Except Panic (result.Result T)) = .ok { val := none, err := some e } := by
  simp [result.Err]

/-- Deserializing an object that holds only a non-null, decodable "value". -/
theorem result.Result.UnmarshalJSON_value_obj (c : Codec T) (r : result.Result T) (j : Json)
    (v : T) (hj : j ≠ Json.null) (hd : c.dec j = .ok v) :
    r.UnmarshalJSON c (Json.obj [("value", j)]) = ({ r with val := some v }, none) := by
  have hfield := result.resultWrap.decodeField_value c (({} : result.resultWrap T), none) j v hj hd
  simp [result.Result.UnmarshalJSON, result.resultWrap.unmarshal, hfield, result.Result.unwrap]

/-- Deserializing an object that holds only a non-empty "error" string. -/
theorem result.Result.UnmarshalJSON_error_obj (c : Codec T) (r : result.Result T) (m : string)
    (hm : m ≠ "") :
    r.UnmarshalJSON c (Json.obj [("error", Json.str m)])
      = ({ r with err := some (errors.New m) }, none) := by
  have hfield := result.resultWrap.decodeField_error c (({} : result.resultWrap T), none) m
  simp [result.Result.UnmarshalJSON, result.resultWrap.unmarshal, hfield, result.Result.unwrap, hm]

/-- The three ways `unwrap` ends on a fresh receiver. -/
theorem result.Result.unwrap_fresh (res : result.resultWrap T) (err : error) :
    (err.isSome = true ∧ ({} : result.Result T).unwrap res err = ({}, err))
    ∨ (err = none ∧ res.Error ≠ ""
        ∧ ({} : result.Result T).unwrap res err
            = ({ val := none, err := some (errors.New res.Error) }, none))
    ∨ (err = none ∧ res.Error = "" ∧ ∃ v, res.Value = some v
        ∧ ({} : result.Result T).unwrap res err = ({ val := some v, err := none }, none))
    ∨ (err = none ∧ res.Error = "" ∧ res.Value = none
        ∧ ({} : result.Result T).unwrap res err = ({}, some result.ErrNoValueError)) := by
  unfold result.Result.unwrap
  cases err with
  | some e => simp
  | none =>
    by_cases he : res.Error = ""
    · cases hv : res.Value <;> simp [he]
    · simp [he]

theorem option.optionWrap.decodeField_payload (c : Codec T) (st : option.optionWrap T × error)
    (j : Json) (v : T) (hj : j ≠ Json.null) (hd : c.dec j = .ok v) :
    option.optionWrap.decodeField c st ("value", j) = ({ st.1 with Value := some v }, st.2) := by
  cases j <;> simp_all [option.optionWrap.decodeField, json.keyIs_value_value]

theorem option.optionWrap.decodeField_payload_null (c : Codec T)
    (st : option.optionWrap T × error) :
    option.optionWrap.decodeField c st ("value", Json.null)
      = ({ st.1 with Value := none }, st.2) := by
  simp [option.optionWrap.decodeField, json.keyIs_value_value]

/-- Serialized form of `Some(v)` when the payload has the encoding `j`. -/
theorem option.Option.MarshalJSON_some (c : Codec T) (v : T) (j : Json) (hj : c.enc v = .ok j) :
    (option.Some v).MarshalJSON c = .ok (Json.obj [("value", j)]) := by
  simp [option.Option.MarshalJSON, option.Option.wrap, option.Some, option.optionWrap.marshal, hj]

/-- Serializing `Some(v)` fails with the error of the payload encoder. -/
theorem option.Option.MarshalJSON_some_error (c : Codec T) (v : T) (e : GoError)
    (he : c.enc v = .error e) :
    (option.Some v).MarshalJSON c = .error e := by
  simp [option.Option.MarshalJSON, option.Option.wrap, option.Some, option.optionWrap.marshal, he]

/-- Serialized form of `None()`. -/
theorem option.Option.MarshalJSON_none (c : Codec T) :
    (option.None : option.Option T).MarshalJSON c = .ok (Json.obj []) := by
  simp [option.Option.MarshalJSON, option.Option.wrap, option.None, option.optionWrap.marshal]

/-- Deserializing an object that holds only a non-null, decodable "value". -/
theorem option.Option.UnmarshalJSON_some_obj (c : Codec T) (o : option.Option T) (j : Json)
    (v : T) (hj : j ≠ Json.null) (hd : c.dec j = .ok v) :
    o.UnmarshalJSON c (Json.obj [("value", j)]) = (option.Some v, none) := by
  have hfield := option.optionWrap.decodeField_payload c (({} : option.optionWrap T), none) j v hj hd
  simp [option.Option.UnmarshalJSON, option.optionWrap.unmarshal, hfield, option.Option.unwrap,
    option.Some]

/-- Deserializing the empty object. -/
theorem option.Option.UnmarshalJSON_empty_obj (c : Codec T) (o : option.Option T) :
    o.UnmarshalJSON c (Json.obj []) = (option.None, none) := by
  simp [option.Option.UnmarshalJSON, option.optionWrap.unmarshal, option.Option.unwrap,
    option.None]

/-- Deserializing an object whose "value" is `null`. -/
theorem option.Option.UnmarshalJSON_null_obj (c : Codec T) (o : option.Option T) :
    o.UnmarshalJSON c (Json.obj [("value", Json.null)]) = (option.None, none) := by
  simp [option.Option.UnmarshalJSON, option.optionWrap.unmarshal,
    option.optionWrap.decodeField_payload_null, option.Option.unwrap, option.None]

/-- A pair whose key selects "value" and whose value is not `null` and decodes
to `v` stores `v` in the pointer field. -/
theorem result.resultWrap.decodeField_key_value (c : Codec T) (st : result.resultWrap T × error)
    (k : string) (j : Json) (v : T) (hk : json.keyIs k "value" = true) (hj : j ≠ Json.null)
    (hd : c.dec j = .ok v) :
    result.resultWrap.decodeField c st (k, j) = ({ st.1 with Value := some v }, st.2) := by
  cases j <;> simp_all [result.resultWrap.decodeField]

/-- A pair whose key selects "value" and whose value is `null` sets the pointer
field to nil. -/
theorem result.resultWrap.decodeField_key_null (c : Codec T) (st : result.resultWrap T × error)
    (k : string) (hk : json.keyIs k "value" = true) :
    result.resultWrap.decodeField c st (k, Json.null)
      = ({ st.1 with Value := none }, st.2) := by
  simp [result.resultWrap.decodeField, hk]

theorem json.saveError_ne_none (saved : error) (e : GoError) : json.saveError saved e ≠ none := by
  cases saved <;> simp [json.saveError]

/-- A wire object in which no key selects the field gives no value for it. -/
theorem Json.field_of_count_zero (name : string) :
    ∀ kvs : List (string × Json), Json.count name kvs = 0 → Json.field name kvs = none := by
  intro kvs
  induction kvs with
  | nil => intro _; rfl
  | cons kv rest ih =>
    intro h
    simp only [Json.count] at h
    by_cases hk : json.keyIs kv.1 name = true
    · simp [hk] at h
    · simp only [hk] at h
      simp [Json.field, hk, ih (by simpa using h)]

/-- Decoding a pair whose key selects "value" without a type error. -/
theorem result.resultWrap.decodeField_value_ok (c : Codec T) (st : result.resultWrap T × error)
    (k : string) (j : Json) (hk : json.keyIs k "value" = true)
    (h : (result.resultWrap.decodeField c st (k, j)).2 = none) :
    st.2 = none
    ∧ (result.resultWrap.decodeField c st (k, j)).1.Error = st.1.Error
    ∧ ((j = Json.null ∧ (result.resultWrap.decodeField c st (k, j)).1.Value = none)
      ∨ (j ≠ Json.null ∧ ∃ v : T, c.dec j = .ok v
          ∧ (result.resultWrap.decodeField c st (k, j)).1.Value = some v)) := by
  by_cases hj : j = Json.null
  · subst hj
    rw [result.resultWrap.decodeField_key_null c st k hk] at h ⊢
    exact ⟨h, rfl, Or.inl ⟨rfl, rfl⟩⟩
  · cases hd : c.dec j with
    | ok v =>
      rw [result.resultWrap.decodeField_key_value c st k j v hk hj hd] at h ⊢
      exact ⟨h, rfl, Or.inr ⟨hj, v, rfl, rfl⟩⟩
    | error e =>
      exfalso
      have hs : (result.resultWrap.decodeField c st (k, j)).2 = json.saveError st.2 e := by
        cases j <;> simp_all [result.resultWrap.decodeField]
      rw [hs] at h
      exact json.saveError_ne_none _ _ h

/-- Decoding a pair whose key selects "error" without a type error. -/
theorem result.resultWrap.decodeField_error_ok (c : Codec T) (st : result.resultWrap T × error)
    (k : string) (j : Json) (hk : json.keyIs k "value" = false)
    (hk' : json.keyIs k "error" = true)
    (h : (result.resultWrap.decodeField c st (k, j)).2 = none) :
    st.2 = none
    ∧ (result.resultWrap.decodeField c st (k, j)).1.Value = st.1.Value
    ∧ ((j = Json.null ∧ (result.resultWrap.decodeField c st (k, j)).1.Error = st.1.Error)
      ∨ (∃ s : string, j = Json.str s
          ∧ (result.resultWrap.decodeField c st (k, j)).1.Error = s)) := by
  cases j with
  | null =>
    simp only [result.resultWrap.decodeField, hk, hk'] at h ⊢
    simp_all
  | str s =>
    simp only [result.resultWrap.decodeField, hk, hk'] at h ⊢
    simp_all
  | bool b =>
    exfalso
    simp only [result.resultWrap.decodeField, hk, hk'] at h
    exact json.saveError_ne_none _ _ (by simpa using h)
  | num n =>
    exfalso
    simp only [result.resultWrap.decodeField, hk, hk'] at h
    exact json.saveError_ne_none _ _ (by simpa using h)
  | arr xs =>
    exfalso
    simp only [result.resultWrap.decodeField, hk, hk'] at h
    exact json.saveError_ne_none _ _ (by simpa using h)
  | obj kvs =>
    exfalso
    simp only [result.resultWrap.decodeField, hk, hk'] at h
    exact json.saveError_ne_none _ _ (by simpa using h)

/-- A pair whose key selects neither field is skipped. -/
theorem result.resultWrap.decodeField_other (c : Codec T) (st : result.resultWrap T × error)
    (k : string) (j : Json) (hk : json.keyIs k "value" = false)
    (hk' : json.keyIs k "error" = false) :
    result.resultWrap.decodeField c st (k, j) = st := by
  simp [result.resultWrap.decodeField, hk, hk']

/-- What decoding a wire object leaves in the wrapper, in terms of the values
the object gives for the two fields, when each field is selected by at most
one key and no type error is met. -/
theorem result.resultWrap.foldl_decodeField (c : Codec T) :
    ∀ (kvs : List (string × Json)) (st : result.resultWrap T × error),
      Json.count "value" kvs ≤ 1 → Json.count "error" kvs ≤ 1 →
      (kvs.foldl (result.resultWrap.decodeField c) st).2 = none →
      st.2 = none
      ∧ (Json.field "value" kvs = none →
          (kvs.foldl (result.resultWrap.decodeField c) st).1.Value = st.1.Value)
      ∧ (Json.field "value" kvs = some Json.null →
          (kvs.foldl (result.resultWrap.decodeField c) st).1.Value = none)
      ∧ (∀ j : Json, Json.field "value" kvs = some j → j ≠ Json.null →
          ∃ v : T, c.dec j = .ok v
            ∧ (kvs.foldl (result.resultWrap.decodeField c) st).1.Value = some v)
      ∧ (Json.field "error" kvs = none →
          (kvs.foldl (result.resultWrap.decodeField c) st).1.Error = st.1.Error)
      ∧ (Json.field "error" kvs = some Json.null →
          (kvs.foldl (result.resultWrap.decodeField c) st).1.Error = st.1.Error)
      ∧ (∀ s : string, Json.field "error" kvs = some (Json.str s) →
          (kvs.foldl (result.resultWrap.decodeField c) st).1.Error = s)
      ∧ (∀ j : Json, Json.field "error" kvs = some j →
          j = Json.null ∨ ∃ s : string, j = Json.str s) := by
  intro kvs
  induction kvs with
  | nil =>
    intro st _ _ h
    simp only [List.foldl_nil] at h
    simp [Json.field, h]
  | cons kv rest ih =>
    intro st hv he h
    obtain ⟨k, j⟩ := kv
    simp only [List.foldl_cons] at h ⊢
    simp only [Json.count] at hv he
    by_cases hkv : json.keyIs k "value" = true
    · have hke := json.keyIs_value_not_error k hkv
      simp only [hkv, hke, if_true, Bool.false_eq_true, if_false] at hv he
      have hf := Json.field_of_count_zero "value" rest (by omega)
      obtain ⟨h2, hV, _, _, hE0, hEn, hEs, hEj⟩ :=
        ih (result.resultWrap.decodeField c st (k, j)) (by omega) (by omega) h
      obtain ⟨hst, hErr, hcase⟩ := result.resultWrap.decodeField_value_ok c st k j hkv h2
      have hfinal := hV hf
      have hfv : Json.field "value" ((k, j) :: rest) = some j := by simp [Json.field, hkv]
      have hfe : Json.field "error" ((k, j) :: rest) = Json.field "error" rest := by
        simp [Json.field, hke]
      rw [hfv, hfe]
      refine ⟨hst, ?_, ?_, ?_, ?_, ?_, ?_, hEj⟩
      · intro hn
        simp at hn
      · intro hn
        rcases hcase with ⟨_, hval⟩ | ⟨hne, _⟩
        · rw [hfinal, hval]
        · exact absurd (Option.some.inj hn) hne
      · intro j' hj' hne'
        have hjj : j = j' := Option.some.inj hj'
        subst hjj
        rcases hcase with ⟨hnull, _⟩ | ⟨_, v, hd, hval⟩
        · exact absurd hnull hne'
        · exact ⟨v, hd, by rw [hfinal, hval]⟩
      · intro hn
        rw [hE0 hn, hErr]
      · intro hn
        rw [hEn hn, hErr]
      · intro s hs
        exact hEs s hs
    · have hkv' : json.keyIs k "value" = false := by simpa using hkv
      by_cases hke : json.keyIs k "error" = true
      · simp only [hkv', hke, if_true, Bool.false_eq_true, if_false] at hv he
        have hf := Json.field_of_count_zero "error" rest (by omega)
        obtain ⟨h2, hV0, hVn, hVj, hE0, _, _, _⟩ :=
          ih (result.resultWrap.decodeField c st (k, j)) (by omega) (by omega) h
        obtain ⟨hst, hVal, hcase⟩ :=
          result.resultWrap.decodeField_error_ok c st k j hkv' hke h2
        have hfinal := hE0 hf
        have hfv : Json.field "value" ((k, j) :: rest) = Json.field "value" rest := by
          simp [Json.field, hkv']
        have hfe : Json.field "error" ((k, j) :: rest) = some j := by simp [Json.field, hke]
        rw [hfv, hfe]
        refine ⟨hst, ?_, hVn, hVj, ?_, ?_, ?_, ?_⟩
        · intro hn
          rw [hV0 hn, hVal]
        · intro hn
          simp at hn
        · intro hn
          have hjn : j = Json.null := Option.some.inj hn
          rcases hcase with ⟨_, herr⟩ | ⟨s, hs, _⟩
          · rw [hfinal, herr]
          · rw [hs] at hjn
            cases hjn
        · intro s hs
          have hjs : j = Json.str s := Option.some.inj hs
          rcases hcase with ⟨hnull, _⟩ | ⟨s', hs', herr⟩
          · rw [hnull] at hjs
            cases hjs
          · rw [hs'] at hjs
            cases hjs
            rw [hfinal, herr]
        · intro j' hj'
          have hjj : j = j' := Option.some.inj hj'
          subst hjj
          rcases hcase with ⟨hnull, _⟩ | ⟨s, hs, _⟩
          · exact Or.inl hnull
          · exact Or.inr ⟨s, hs⟩
      · have hke' : json.keyIs k "error" = false := by simpa using hke
        simp only [hkv', hke', Bool.false_eq_true, if_false] at hv he
        rw [result.resultWrap.decodeField_other c st k j hkv' hke'] at h ⊢
        have hfv : Json.field "value" ((k, j) :: rest) = Json.field "value" rest := by
          simp [Json.field, hkv']
        have hfe : Json.field "error" ((k, j) :: rest) = Json.field "error" rest := by
          simp [Json.field, hke']
        rw [hfv, hfe]
        exact ih st (by omega) (by omega) h

end helpers


/-! ## Theorems: `result` serialization -/

namespace result

variable {T : Type}

/-- C1 (as stated, refuted): four Results built by `Ok` or by `Err` of a non-nil
error do not round-trip. `Err(errors.New(""))` serializes to the empty object,
which deserializes to `ErrNoValueError`. `Ok` of a nil `*int`, whose payload
type round-trips on its own, serializes its payload as `null`, which
deserializes to `ErrNoValueError`. `Err` of the error whose message is the
single byte FF, which is not valid UTF-8, serializes the message as U+FFFD, and
the Fail that comes back has that other message. `Ok` of a channel does not
serialize at all. -/
theorem C1_roundtrip_fails_on_empty_message_and_null_payload :
    (∃ r : Result Int, Err (some (errors.New "")) = .ok r
      ∧ r.IsErr = true
      ∧ r.MarshalJSON intCodec = .ok (Json.obj [])
      ∧ Result.UnmarshalJSON intCodec {} (Json.obj []) = ({}, some ErrNoValueError))
    ∧ (intPtrCodec.enc none = .ok Json.null
      ∧ intPtrCodec.dec Json.null = .ok none
      ∧ (Ok (none : Ptr Int)).MarshalJSON intPtrCodec = .ok (Json.obj [("value", Json.null)])
      ∧ Result.UnmarshalJSON intPtrCodec {} (Json.obj [("value", Json.null)])
          = ({}, some ErrNoValueError))
    ∧ (∃ r : Result Int, Err (some (errors.New { bytes := [0xFF] })) = .ok r
      ∧ r.MarshalJSON intCodec
          = .ok (Json.obj [("error", Json.str { bytes := [0xEF, 0xBF, 0xBD] })])
      ∧ Result.UnmarshalJSON intCodec {}
            (Json.obj [("error", Json.str { bytes := [0xEF, 0xBF, 0xBD] })])
          = ({ val := none, err := some (errors.New { bytes := [0xEF, 0xBF, 0xBD] }) }, none)
      ∧ (errors.New { bytes := [0xEF, 0xBF, 0xBD] }).Error
          ≠ (errors.New { bytes := [0xFF] }).Error)
    ∧ (Ok (none : ChanInt)).MarshalJSON chanCodec
        = .error (json.unsupportedTypeError "chan int") := by
  refine ⟨⟨{ val := none, err := some (errors.New "") }, rfl, rfl, rfl, by decide⟩,
    ⟨rfl, rfl, rfl, by decide⟩,
    ⟨{ val := none, err := some (errors.New { bytes := [0xFF] }) }, rfl, rfl, by decide,
      by decide⟩,
    rfl⟩

/-- C1 (amended): for every `Ok(v)` whose payload has an encoding that is not
`null` and decodes back to `v`, and for every `Err(e)` with a non-nil `e` whose
message is not empty and is valid UTF-8, serialization succeeds, deserializing
the result into a fresh Result succeeds, the outcome has the same `IsOk()`, and
it has `Value() = v` in the Ok case and an `Error()` with the message of `e` in
the Fail case. -/
theorem C1_result_roundtrip (c : Codec T) :
    (∀ (v : T) (j : Json), c.enc v = .ok j → j ≠ Json.null → c.dec j = .ok v →
      ∃ w : Json, (Ok v).MarshalJSON c = .ok w
        ∧ (Result.UnmarshalJSON c {} w).2 = none
        ∧ (Result.UnmarshalJSON c {} w).1.IsOk = (Ok v).IsOk
        ∧ (Result.UnmarshalJSON c {} w).1.IsOk = true
        ∧ (Result.UnmarshalJSON c {} w).1.Value = .ok v)
    ∧ (∀ (e : GoError) (r : Result T), e.Error ≠ "" → utf8.ValidString e.Error = true →
      Err (some e) = .ok r →
      ∃ w : Json, r.MarshalJSON c = .ok w
        ∧ (Result.UnmarshalJSON c {} w).2 = none
        ∧ (Result.UnmarshalJSON c {} w).1.IsOk = r.IsOk
        ∧ (Result.UnmarshalJSON c {} w).1.IsOk = false
        ∧ ∃ e' : GoError,
            (Result.UnmarshalJSON c {} w).1.Error = .ok (some e')
            ∧ e'.Error = e.Error) := by
  constructor
  · intro v j henc hnull hdec
    refine ⟨Json.obj [("value", j)], Result.MarshalJSON_ok c v j henc, ?_⟩
    rw [Result.UnmarshalJSON_value_obj c {} j v hnull hdec]
    simp [Ok, Result.IsOk, Result.IsErr, Result.Value]
  · intro e r hmsg hvalid hr
    rw [Err_some] at hr
    cases hr
    refine ⟨Json.obj [("error", Json.str e.Error)], ?_, ?_⟩
    · rw [Result.MarshalJSON_fail c e hmsg, json.coerceUTF8_valid e.Error hvalid]
    · rw [Result.UnmarshalJSON_error_obj c {} e.Error hmsg]
      refine ⟨rfl, ?_, ?_, errors.New e.Error, ?_, ?_⟩ <;>
        simp [Result.IsOk, Result.Error, errors.New, GoError.Error]

/-- C1 (amended), applied to `Ok(42)` and `Err(errors.New("wrong number"))`
over `int`. -/
theorem C1_result_roundtrip_witness :
    (∃ w : Json, (Ok (42 : Int)).MarshalJSON intCodec = .ok w
      ∧ (Result.UnmarshalJSON intCodec {} w).1.Value = .ok 42)
    ∧ (∃ w : Json,
        ({ val := none, err := some (errors.New "wrong number") } : Result Int).MarshalJSON
          intCodec = .ok w
        ∧ ∃ e' : GoError, (Result.UnmarshalJSON intCodec {} w).1.Error = .ok (some e')
          ∧ e'.Error = (errors.New "wrong number").Error) :=
  ⟨(((C1_result_roundtrip intCodec).1 42 (Json.num 42) rfl (by simp) rfl).imp
      (fun _ h => ⟨h.1, h.2.2.2.2⟩)),
   (((C1_result_roundtrip intCodec).2 (errors.New "wrong number")
      { val := none, err := some (errors.New "wrong number") } (by decide) (by decide) rfl).imp
      (fun _ h => ⟨h.1, h.2.2.2.2⟩))⟩

/-- C3 (as stated, refuted): in the object whose only pair is "error" with the
value `null`, the "error" field is present and is not the empty string, the
object decodes without error, and deserialization still returns
`ErrNoValueError`. In the object whose only pair is "ERROR" with the value
"boom", no key is "error" or "value", the object decodes without error, and
deserialization returns no error: the key selects the field up to letter case
and the outcome is the Fail with message "boom". -/
theorem C3_null_error_field_returns_sentinel :
    (Json.field "error" [("error", Json.null)] = some Json.null
      ∧ (resultWrap.unmarshal intCodec (Json.obj [("error", Json.null)]) {}).2 = none
      ∧ (Result.UnmarshalJSON intCodec {} (Json.obj [("error", Json.null)])).2
          = some ErrNoValueError)
    ∧ (Json.keys (Json.obj [("ERROR", Json.str "boom")]) = ["ERROR"]
      ∧ ("ERROR" : string) ≠ "error"
      ∧ ("ERROR" : string) ≠ "value"
      ∧ (resultWrap.unmarshal intCodec (Json.obj [("ERROR", Json.str "boom")]) {}).2 = none
      ∧ Result.UnmarshalJSON intCodec {} (Json.obj [("ERROR", Json.str "boom")])
          = ({ val := none, err := some (errors.New "boom") }, none)) := by
  exact ⟨⟨rfl, rfl, by decide⟩, rfl, by decide, by decide, rfl, by decide⟩

/-- C3 (amended): a key selects a field when it equals the field's name up to
letter case. For every wire object in which each of the two fields is selected
by at most one key and which decodes without error, deserialization (into any
destination) returns `ErrNoValueError` if and only if the "error" field is
absent, `null` or the empty string and the "value" field is absent or `null`,
and returns no error in every other case; the empty object, the object
whose "value" is `null`, the object whose "error" is the empty string and the
object whose "error" is `null` all return `ErrNoValueError`. The error is a
returned value: `UnmarshalJSON` has no panicking path. -/
theorem C3_missing_discriminator (c : Codec T) (r : Result T) (kvs : List (string × Json))
    (hv : Json.count "value" kvs ≤ 1) (he : Json.count "error" kvs ≤ 1)
    (hparse : (resultWrap.unmarshal c (Json.obj kvs) {}).2 = none) :
    ((r.UnmarshalJSON c (Json.obj kvs)).2 = some ErrNoValueError ↔
      ((Json.field "error" kvs = none ∨ Json.field "error" kvs = some Json.null
          ∨ Json.field "error" kvs = some (Json.str ""))
        ∧ (Json.field "value" kvs = none ∨ Json.field "value" kvs = some Json.null)))
    ∧ ((r.UnmarshalJSON c (Json.obj kvs)).2 = none ↔
      ¬ ((Json.field "error" kvs = none ∨ Json.field "error" kvs = some Json.null
          ∨ Json.field "error" kvs = some (Json.str ""))
        ∧ (Json.field "value" kvs = none ∨ Json.field "value" kvs = some Json.null)))
    ∧ (r.UnmarshalJSON c (Json.obj [])).2 = some ErrNoValueError
    ∧ (r.UnmarshalJSON c (Json.obj [("value", Json.null)])).2 = some ErrNoValueError
    ∧ (r.UnmarshalJSON c (Json.obj [("error", Json.str "")])).2 = some ErrNoValueError
    ∧ (r.UnmarshalJSON c (Json.obj [("error", Json.null)])).2 = some ErrNoValueError := by
  have hfold : resultWrap.unmarshal c (Json.obj kvs) {}
      = kvs.foldl (resultWrap.decodeField c) ({}, none) := rfl
  rw [hfold] at hparse
  obtain ⟨_, hV0, hVn, hVj, hE0, hEn, hEs, hEj⟩ :=
    resultWrap.foldl_decodeField c kvs ({}, none) hv he hparse
  have hU : r.UnmarshalJSON c (Json.obj kvs)
      = r.unwrap (kvs.foldl (resultWrap.decodeField c) ({}, none)).1 none := by
    simp [Result.UnmarshalJSON, hfold, hparse]
  have hErr : (kvs.foldl (resultWrap.decodeField c) ({}, none)).1.Error = ""
      ↔ (Json.field "error" kvs = none ∨ Json.field "error" kvs = some Json.null
          ∨ Json.field "error" kvs = some (Json.str "")) := by
    constructor
    · intro h
      cases hf : Json.field "error" kvs with
      | none => exact Or.inl rfl
      | some j =>
        rcases hEj j hf with hj | ⟨s, hs⟩
        · subst hj
          exact Or.inr (Or.inl rfl)
        · subst hs
          rw [hEs s hf] at h
          subst h
          exact Or.inr (Or.inr rfl)
    · rintro (h | h | h)
      · rw [hE0 h]
      · rw [hEn h]
      · rw [hEs _ h]
  have hVal : (kvs.foldl (resultWrap.decodeField c) ({}, none)).1.Value = none
      ↔ (Json.field "value" kvs = none ∨ Json.field "value" kvs = some Json.null) := by
    constructor
    · intro h
      cases hf : Json.field "value" kvs with
      | none => exact Or.inl rfl
      | some j =>
        by_cases hj : j = Json.null
        · subst hj
          exact Or.inr rfl
        · obtain ⟨v, _, hval⟩ := hVj j hf hj
          rw [hval] at h
          cases h
    · rintro (h | h)
      · rw [hV0 h]
      · exact hVn h
  refine ⟨?_, ?_, ?_, ?_, ?_, ?_⟩
  · rw [hU, (Result.unwrap_parsed r _).1, hErr, hVal]
  · rw [hU, (Result.unwrap_parsed r _).2, hErr, hVal]
  · simp [Result.UnmarshalJSON, resultWrap.unmarshal, Result.unwrap]
  · simp [Result.UnmarshalJSON, resultWrap.unmarshal, resultWrap.decodeField_value_null,
      Result.unwrap]
  · simp [Result.UnmarshalJSON, resultWrap.unmarshal, resultWrap.decodeField_error,
      Result.unwrap]
  · simp [Result.UnmarshalJSON, resultWrap.unmarshal, resultWrap.decodeField,
      json.keyIs_error_value, json.keyIs_error_error, Result.unwrap]

/-- C3 (amended) at a destination holding `Ok(7)`: the object holding "VALUE"
`null` and "error" "" returns the sentinel; the object holding "error" "boom"
and the object holding "value" 42 return no error. -/
theorem C3_missing_discriminator_witness :
    (Result.UnmarshalJSON intCodec (Ok 7)
        (Json.obj [("VALUE", Json.null), ("error", Json.str "")])).2 = some ErrNoValueError
    ∧ (Result.UnmarshalJSON intCodec (Ok 7) (Json.obj [("error", Json.str "boom")])).2 = none
    ∧ (Result.UnmarshalJSON intCodec (Ok 7) (Json.obj [("value", Json.num 42)])).2 = none :=
  ⟨(C3_missing_discriminator intCodec (Ok 7)
      [("VALUE", Json.null), ("error", Json.str "")] (by decide) (by decide) rfl).1.2
      ⟨Or.inr (Or.inr rfl), Or.inr rfl⟩,
   (C3_missing_discriminator intCodec (Ok 7)
      [("error", Json.str "boom")] (by decide) (by decide) rfl).2.1.2
      (by
        simp only [Json.field, json.keyIs_error_error, json.keyIs_error_value, if_true]
        intro h
        rcases h.1 with h1 | h1 | h1
        · cases h1
        · cases h1
        · exact absurd (Json.str.inj (Option.some.inj h1)) (by decide)),
   (C3_missing_discriminator intCodec (Ok 7)
      [("value", Json.num 42)] (by decide) (by decide) rfl).2.1.2
      (by simp [Json.field, json.keyIs_value_value])⟩

/-- C4: `Ok(v)` is Ok and not Fail and holds a payload and no diagnostic;
`Err(e)` with non-nil `e` is Fail and not Ok and holds the diagnostic `e` and
no payload; `AsResult(v, e)` and every successful deserialization into a fresh
Result satisfy exactly one of `IsOk()` and `IsErr()`; and in general an Ok
Result has a payload and no diagnostic, a Fail Result a diagnostic and no
payload. -/
theorem C4_exactly_one_state (c : Codec T) :
    (∀ v : T, (Ok v).IsOk = true ∧ (Ok v).IsErr = false
      ∧ (Ok v).val = some v ∧ (Ok v).err = none)
    ∧ (∀ e : GoError, ∃ r : Result T, Err (some e) = .ok r
      ∧ r.IsErr = true ∧ r.IsOk = false ∧ r.err = some e ∧ r.val = none)
    ∧ (∀ (v : T) (e : error), ∃ r : Result T, AsResult v e = .ok r
      ∧ ((r.IsOk = true ∧ r.IsErr = false) ∨ (r.IsOk = false ∧ r.IsErr = true)))
    ∧ (∀ (data : Json) (r : Result T), Result.UnmarshalJSON c {} data = (r, none) →
      (r.IsOk = true ∧ r.IsErr = false) ∨ (r.IsOk = false ∧ r.IsErr = true))
    ∧ (∀ r : Result T, r.IsOk = true → r.val.isSome = true ∧ r.err = none)
    ∧ (∀ r : Result T, r.IsErr = true → r.err.isSome = true ∧ r.val = none) := by
  refine ⟨?_, ?_, ?_, ?_, ?_, ?_⟩
  · intro v
    simp [Ok, Result.IsOk, Result.IsErr]
  · intro e
    exact ⟨{ val := none, err := some e }, Err_some e, by simp [Result.IsErr],
      by simp [Result.IsOk], rfl, rfl⟩
  · intro v e
    cases e with
    | none => exact ⟨Ok v, by simp [AsResult], Or.inl (by simp [Ok, Result.IsOk, Result.IsErr])⟩
    | some d =>
      exact ⟨{ val := none, err := some d }, by simp [AsResult, Err],
        Or.inr (by simp [Result.IsOk, Result.IsErr])⟩
  · intro data r h
    unfold Result.UnmarshalJSON at h
    simp only at h
    rcases Result.unwrap_fresh (resultWrap.unmarshal c data {}).1
        (resultWrap.unmarshal c data {}).2 with
      ⟨he, hu⟩ | ⟨_, _, hu⟩ | ⟨_, _, v, _, hu⟩ | ⟨_, _, _, hu⟩
    · rw [hu] at h
      have h2 := congrArg Prod.snd h
      simp only at h2
      rw [h2] at he
      simp at he
    · rw [hu] at h
      have h1 := congrArg Prod.fst h
      simp only at h1
      subst h1
      exact Or.inr (by simp [Result.IsOk, Result.IsErr])
    · rw [hu] at h
      have h1 := congrArg Prod.fst h
      simp only at h1
      subst h1
      exact Or.inl (by simp [Result.IsOk, Result.IsErr])
    · rw [hu] at h
      have h2 := congrArg Prod.snd h
      simp at h2
  · intro r h
    simpa [Result.IsOk] using h
  · intro r h
    have h' : r.val = none ∧ r.err.isSome = true := by simpa [Result.IsErr] using h
    exact ⟨h'.2, h'.1⟩

/-- C4 at the deserialization of the object with "error" "boom" into a fresh
`Result[int]`, and at `Ok(42)`. -/
theorem C4_exactly_one_state_witness :
    ((({ val := none, err := some (errors.New "boom") } : Result Int).IsOk = true
        ∧ ({ val := none, err := some (errors.New "boom") } : Result Int).IsErr = false)
      ∨ (({ val := none, err := some (errors.New "boom") } : Result Int).IsOk = false
        ∧ ({ val := none, err := some (errors.New "boom") } : Result Int).IsErr = true))
    ∧ ((Ok (42 : Int)).val.isSome = true ∧ (Ok (42 : Int)).err = none) :=
  ⟨(C4_exactly_one_state intCodec).2.2.2.1 (Json.obj [("error", Json.str "boom")])
      { val := none, err := some (errors.New "boom") } rfl,
   (C4_exactly_one_state intCodec).2.2.2.2.1 (Ok 42) rfl⟩

end result

/-! ## Theorems: `option` serialization -/

namespace option

variable {T : Type}

/-- C5 (as stated, refuted): the payload type `*int` round-trips through JSON on
its own (nil as `null`), yet `Some` of the nil pointer, which is Present,
serializes to an object whose "value" is `null`, and deserializing that yields
`None()`, which is Absent. -/
theorem C5_roundtrip_fails_on_null_payload :
    (∀ p : Ptr Int, ∃ j : Json, intPtrCodec.enc p = .ok j ∧ intPtrCodec.dec j = .ok p)
    ∧ (Some (none : Ptr Int)).IsSome = true
    ∧ (Some (none : Ptr Int)).MarshalJSON intPtrCodec
        = .ok (Json.obj [("value", Json.null)])
    ∧ Option.UnmarshalJSON intPtrCodec {} (Json.obj [("value", Json.null)]) = (None, none)
    ∧ (None : Option (Ptr Int)).IsSome = false
    ∧ (None : Option (Ptr Int)) ≠ Some none := by
  refine ⟨?_, rfl, rfl, rfl, rfl, by decide⟩
  intro p
  cases p with
  | none => exact ⟨Json.null, rfl, rfl⟩
  | some n => exact ⟨Json.num n, rfl, rfl⟩

/-- C5 (amended): serializing `None()` and deserializing the result (into any
destination) succeeds and yields `None()`; for every payload `v` that has an
encoding which is not `null` and decodes back to `v`, serializing `Some(v)` and
deserializing the result succeeds and yields `Some(v)`. -/
theorem C5_option_roundtrip (c : Codec T) (dst : Option T) :
    (∃ w : Json, (None : Option T).MarshalJSON c = .ok w
      ∧ dst.UnmarshalJSON c w = (None, none))
    ∧ (∀ (v : T) (j : Json), c.enc v = .ok j → j ≠ Json.null → c.dec j = .ok v →
      ∃ w : Json, (Some v).MarshalJSON c = .ok w
        ∧ dst.UnmarshalJSON c w = (Some v, none)
        ∧ (dst.UnmarshalJSON c w).1.IsSome = (Some v).IsSome
        ∧ (dst.UnmarshalJSON c w).1.Value = .ok v) := by
  constructor
  · exact ⟨Json.obj [], Option.MarshalJSON_none c, Option.UnmarshalJSON_empty_obj c dst⟩
  · intro v j henc hnull hdec
    refine ⟨Json.obj [("value", j)], Option.MarshalJSON_some c v j henc, ?_⟩
    rw [Option.UnmarshalJSON_some_obj c dst j v hnull hdec]
    simp [Some, Option.Value, Option.IsNone]

/-- C5 (amended) at `Some(42)` over `int`, deserialized into a destination that
held `Some(7)`. -/
theorem C5_option_roundtrip_witness :
    ∃ w : Json, (Some (42 : Int)).MarshalJSON intCodec = .ok w
      ∧ Option.UnmarshalJSON intCodec (Some 7) w = (Some 42, none) :=
  ((C5_option_roundtrip intCodec (Some 7)).2 42 (Json.num 42) rfl (by simp) rfl).imp
    (fun _ h => ⟨h.1, h.2.1⟩)

/-- C7 (as stated, refuted): `Some` of a nil `chan int` is Present, yet its
serialization is not an object: `MarshalJSON` returns the encoder's
unsupported-type error and no bytes. -/
theorem C7_some_of_channel_does_not_serialize :
    (Some (none : ChanInt)).IsSome = true
    ∧ (Some (none : ChanInt)).MarshalJSON chanCodec
        = .error (json.unsupportedTypeError "chan int") := by
  exact ⟨rfl, rfl⟩

/-- C7 (amended): `None()` serializes to the empty object; for every payload
`v` that has an encoding `j`, `Some(v)` serializes to the object whose only
pair is "value" with `j`, and for a payload the encoder rejects `MarshalJSON`
returns the encoder's error; whenever serialization succeeds, the key "value"
is among the keys of the serialized form exactly when the Option is
Present. -/
theorem C7_option_wire_form (c : Codec T) :
    (None : Option T).MarshalJSON c = .ok (Json.obj [])
    ∧ (∀ (v : T) (j : Json), c.enc v = .ok j →
        (Some v).MarshalJSON c = .ok (Json.obj [("value", j)])
        ∧ Json.keys (Json.obj [("value", j)]) = ["value"])
    ∧ (∀ (v : T) (e : GoError), c.enc v = .error e → (Some v).MarshalJSON c = .error e)
    ∧ (∀ (o : Option T) (w : Json), o.MarshalJSON c = .ok w →
        (("value" : string) ∈ Json.keys w ↔ o.IsSome = true)) := by
  refine ⟨Option.MarshalJSON_none c, ?_, ?_, ?_⟩
  · intro v j henc
    exact ⟨Option.MarshalJSON_some c v j henc, rfl⟩
  · intro v e henc
    exact Option.MarshalJSON_some_error c v e henc
  · intro o w h
    cases o with
    | mk val =>
      cases val with
      | none =>
        simp only [Option.MarshalJSON, Option.wrap, optionWrap.marshal] at h
        cases h
        simp [Json.keys, Option.IsSome]
      | some v =>
        simp only [Option.MarshalJSON, Option.wrap, optionWrap.marshal] at h
        cases henc : c.enc v with
        | error e =>
          rw [henc] at h
          cases h
        | ok j =>
          rw [henc] at h
          cases h
          simp [Json.keys, Option.IsSome]

/-- C7 (amended) at `Some(42)` over `int`. -/
theorem C7_option_wire_form_witness :
    (Some (42 : Int)).MarshalJSON intCodec = .ok (Json.obj [("value", Json.num 42)])
    ∧ (("value" : string) ∈ Json.keys (Json.obj [("value", Json.num 42)])
        ↔ (Some (42 : Int)).IsSome = true) :=
  ⟨((C7_option_wire_form intCodec).2.1 42 (Json.num 42) rfl).1,
   (C7_option_wire_form intCodec).2.2.2 (Some 42) (Json.obj [("value", Json.num 42)]) rfl⟩

end option

/-! ## Theorems: `result` wire form and constructors -/

namespace result

variable {T : Type}

/-- C6 (as stated, refuted): `Err(errors.New(""))` is built from a non-nil
diagnostic, yet its serialized form is the empty object, with no "error" key;
`Err` of the error whose message is the single byte FF serializes to an "error"
that is U+FFFD and not the message; `Ok` of a nil `chan int` does not
serialize to an object at all, `MarshalJSON` returns the encoder's error. -/
theorem C6_fail_with_empty_message_has_no_error_key :
    (∃ r : Result Int, Err (some (errors.New "")) = .ok r
      ∧ r.IsErr = true
      ∧ r.MarshalJSON intCodec = .ok (Json.obj [])
      ∧ ("error" : string) ∉ Json.keys (Json.obj []))
    ∧ (∃ r : Result Int, Err (some (errors.New { bytes := [0xFF] })) = .ok r
      ∧ r.MarshalJSON intCodec
          = .ok (Json.obj [("error", Json.str { bytes := [0xEF, 0xBF, 0xBD] })])
      ∧ ({ bytes := [0xEF, 0xBF, 0xBD] } : string) ≠ (errors.New { bytes := [0xFF] }).Error)
    ∧ (Ok (none : ChanInt)).MarshalJSON chanCodec
        = .error (json.unsupportedTypeError "chan int") :=
  ⟨⟨{ val := none, err := some (errors.New "") }, rfl, rfl, rfl, by simp [Json.keys]⟩,
   ⟨{ val := none, err := some (errors.New { bytes := [0xFF] }) }, rfl, rfl, by decide⟩,
   rfl⟩

/-- C6 (amended): for every payload `v` that has an encoding `j`, `Ok(v)`
serializes to the object whose only pair is "value" with `j`, and for a payload
the encoder rejects `MarshalJSON` returns the encoder's error; for every
non-nil diagnostic `e` whose message is not empty, `Err(e)` serializes to the
object whose only pair is "error" with the message of `e` in which every byte
that is not valid UTF-8 is replaced by U+FFFD, which is the message itself
when it is valid UTF-8. -/
theorem C6_result_wire_form (c : Codec T) :
    (∀ (v : T) (j : Json), c.enc v = .ok j →
      (Ok v).MarshalJSON c = .ok (Json.obj [("value", j)])
      ∧ Json.keys (Json.obj [("value", j)]) = ["value"])
    ∧ (∀ (v : T) (e : GoError), c.enc v = .error e → (Ok v).MarshalJSON c = .error e)
    ∧ (∀ (e : GoError) (r : Result T), e.Error ≠ "" → Err (some e) = .ok r →
      r.MarshalJSON c = .ok (Json.obj [("error", Json.str (json.coerceUTF8 e.Error))])
      ∧ Json.keys (Json.obj [("error", Json.str (json.coerceUTF8 e.Error))]) = ["error"])
    ∧ (∀ (e : GoError) (r : Result T), e.Error ≠ "" → utf8.ValidString e.Error = true →
      Err (some e) = .ok r →
      r.MarshalJSON c = .ok (Json.obj [("error", Json.str e.Error)])) := by
  refine ⟨?_, ?_, ?_, ?_⟩
  · intro v j henc
    exact ⟨Result.MarshalJSON_ok c v j henc, rfl⟩
  · intro v e henc
    exact Result.MarshalJSON_ok_error c v e henc
  · intro e r hmsg hr
    rw [Err_some] at hr
    cases hr
    exact ⟨Result.MarshalJSON_fail c e hmsg, rfl⟩
  · intro e r hmsg hvalid hr
    rw [Err_some] at hr
    cases hr
    rw [Result.MarshalJSON_fail c e hmsg, json.coerceUTF8_valid e.Error hvalid]

/-- C6 (amended) at `Ok(42)` and at `Err(errors.New("wrong number"))` over
`int`. -/
theorem C6_result_wire_form_witness :
    (Ok (42 : Int)).MarshalJSON intCodec = .ok (Json.obj [("value", Json.num 42)])
    ∧ ({ val := none, err := some (errors.New "wrong number") } : Result Int).MarshalJSON
        intCodec = .ok (Json.obj [("error", Json.str (errors.New "wrong number").Error)]) :=
  ⟨((C6_result_wire_form intCodec).1 42 (Json.num 42) rfl).1,
   (C6_result_wire_form intCodec).2.2.2 (errors.New "wrong number")
    { val := none, err := some (errors.New "wrong number") } (by decide) (by decide) rfl⟩

/-- C9: for every payload `v`, `AsResult(v, e)` with a non-nil `e` is what
`Err(e)` returns, namely the Fail holding `e` and no payload, and
`AsResult(v, nil)` is `Ok(v)`; `AsResult` panics on no input. -/
theorem C9_as_result (v : T) :
    (∀ e : GoError, AsResult v (some e) = Err (some e)
      ∧ AsResult v (some e) = .ok { val := none, err := some e })
    ∧ AsResult v none = .ok (Ok v)
    ∧ (∀ e : error, ∃ r : Result T, AsResult v e = .ok r) := by
  refine ⟨?_, ?_, ?_⟩
  · intro e
    simp [AsResult, Err]
  · simp [AsResult]
  · intro e
    cases e with
    | none => exact ⟨Ok v, by simp [AsResult]⟩
    | some d => exact ⟨{ val := none, err := some d }, by simp [AsResult, Err]⟩

/-- C10: `Err(nil)` panics with "error can't be nil"; for every non-nil `e`,
`Err(e)` returns the Fail whose diagnostic is `e`; `AsResult` returns for every
input; `Ok`, `Some` and `None` have no panicking path and yield an Ok, a
Present and an Absent value. -/
theorem C10_construction_failures :
    (Err none : Except Panic (Result T)) = .error (Panic.msg "error can't be nil")
    ∧ (∀ e : GoError, ∃ r : Result T, Err (some e) = .ok r
        ∧ r.IsErr = true ∧ r.err = some e ∧ r.Error = .ok (some e))
    ∧ (∀ (v : T) (e : error), ∃ r : Result T, AsResult v e = .ok r)
    ∧ (∀ v : T, (Ok v).IsOk = true ∧ (Ok v).Value = .ok v)
    ∧ (∀ v : T, (option.Some v).IsSome = true ∧ (option.Some v).Value = .ok v)
    ∧ (option.None : option.Option T).IsNone = true := by
  refine ⟨by simp [Err], ?_, ?_, ?_, ?_, ?_⟩
  · intro e
    exact ⟨{ val := none, err := some e }, Err_some e, by simp [Result.IsErr], rfl,
      by simp [Result.Error, Result.IsOk]⟩
  · intro v e
    cases e with
    | none => exact ⟨Ok v, by simp [AsResult]⟩
    | some d => exact ⟨{ val := none, err := some d }, by simp [AsResult, Err]⟩
  · intro v
    simp [Ok, Result.IsOk, Result.Value, Result.IsErr]
  · intro v
    simp [option.Some, option.Option.IsSome, option.Option.Value, option.Option.IsNone]
  · simp [option.None, option.Option.IsNone]

end result

/-! ## Theorems: accessors, predicates and fallbacks -/

namespace result

variable {T : Type}

/-- C11 (as stated, refuted): on the zero `Result[int]`, which holds neither a
payload nor a diagnostic, `IsErr()` is false, so the state is not Fail, and
yet `Value()` fails, on the nil payload pointer. -/
theorem C11_value_fails_outside_fail :
    ({} : Result Int).IsErr = false
    ∧ ({} : Result Int).IsOk = false
    ∧ ({} : Result Int).Value = .error Panic.nilDeref := by
  exact ⟨rfl, rfl, rfl⟩

/-- C11 (amended): `Ok(v).Value() = v` and `Ok(v).Error()` panics with the
unwrap-error message; for non-nil `e`, `Err(e).Error() = e` and `Err(e).Value()`
panics with the unwrap-value message. On every Result that holds a payload or
a diagnostic, `Value()` fails if and only if `IsErr()`; on every Result,
`Value()` panics with the unwrap-value message if and only if `IsErr()`, and
`Error()` fails if and only if `IsOk()`. -/
theorem C11_result_partial_accessors :
    (∀ v : T, (Ok v).Value = .ok v
      ∧ (Ok v).Error = .error (Panic.msg "can't unwrap error in the result with a value"))
    ∧ (∀ (e : GoError) (r : Result T), Err (some e) = .ok r →
      r.Error = .ok (some e)
      ∧ r.Value = .error (Panic.msg "can't unwrap value in the result with an error"))
    ∧ (∀ r : Result T, r.val.isSome = true ∨ r.err.isSome = true →
      ((∃ p : Panic, r.Value = .error p) ↔ r.IsErr = true))
    ∧ (∀ r : Result T,
      r.Value = .error (Panic.msg "can't unwrap value in the result with an error")
        ↔ r.IsErr = true)
    ∧ (∀ r : Result T, (∃ p : Panic, r.Error = .error p) ↔ r.IsOk = true) := by
  refine ⟨?_, ?_, ?_, ?_, ?_⟩
  · intro v
    simp [Ok, Result.Value, Result.Error, Result.IsOk, Result.IsErr]
  · intro e r hr
    rw [Err_some] at hr
    cases hr
    simp [Result.Value, Result.Error, Result.IsOk, Result.IsErr]
  · intro r h
    cases r with
    | mk val err =>
      cases val <;> cases err <;> simp_all [Result.Value, Result.IsErr]
  · intro r
    cases r with
    | mk val err =>
      cases val <;> cases err <;> simp [Result.Value, Result.IsErr]
  · intro r
    cases r with
    | mk val err =>
      cases val <;> cases err <;> simp [Result.Error, Result.IsOk]

/-- C11 (amended) at `Err(errors.New("wrong number"))` over `int`: `Error()`
returns the diagnostic and `Value()` fails, the state being Fail. -/
theorem C11_result_partial_accessors_witness :
    (({ val := none, err := some (errors.New "wrong number") } : Result Int).Error
        = .ok (some (errors.New "wrong number")))
    ∧ ((∃ p : Panic,
          ({ val := none, err := some (errors.New "wrong number") } : Result Int).Value
            = .error p)
        ↔ ({ val := none, err := some (errors.New "wrong number") } : Result Int).IsErr = true) :=
  ⟨((C11_result_partial_accessors (T := Int)).2.1 (errors.New "wrong number")
      { val := none, err := some (errors.New "wrong number") } rfl).1,
   (C11_result_partial_accessors (T := Int)).2.2.1
      { val := none, err := some (errors.New "wrong number") } (Or.inr rfl)⟩

end result

namespace option

variable {T : Type}

/-- C12: `Some(v).Value() = v`, `None().Value()` panics with "can't unwrap none
value", and for every Option `Value()` fails if and only if `IsNone()`. -/
theorem C12_option_partial_accessor :
    (∀ v : T, (Some v).Value = .ok v)
    ∧ (None : Option T).Value = .error (Panic.msg "can't unwrap none value")
    ∧ (∀ o : Option T, (∃ p : Panic, o.Value = .error p) ↔ o.IsNone = true) := by
  refine ⟨?_, ?_, ?_⟩
  · intro v
    simp [Some, Option.Value, Option.IsNone]
  · simp [None, Option.Value, Option.IsNone]
  · intro o
    cases o with
    | mk val => cases val <;> simp [Option.Value, Option.IsNone]

/-- C13: every Option satisfies exactly one of `IsSome()` and `IsNone()`, and
is either `None()` or `Some(v)` for its payload `v`; `Some(v)` is Present and
not Absent; `None()` and the zero value are Absent and not Present; whatever
deserialization leaves in the destination is again one of the two. -/
theorem C13_option_state_total (c : Codec T) :
    (∀ o : Option T, (o.IsSome = true ∧ o.IsNone = false) ∨ (o.IsSome = false ∧ o.IsNone = true))
    ∧ (∀ o : Option T, o = None ∨ ∃ v : T, o = Some v)
    ∧ (∀ v : T, (Some v).IsSome = true ∧ (Some v).IsNone = false)
    ∧ ((None : Option T).IsNone = true ∧ (None : Option T).IsSome = false)
    ∧ (({} : Option T) = None)
    ∧ (∀ (dst : Option T) (data : Json),
        ((dst.UnmarshalJSON c data).1.IsSome = true ∧ (dst.UnmarshalJSON c data).1.IsNone = false)
        ∨ ((dst.UnmarshalJSON c data).1.IsSome = false
          ∧ (dst.UnmarshalJSON c data).1.IsNone = true)) := by
  have hall : ∀ o : Option T,
      (o.IsSome = true ∧ o.IsNone = false) ∨ (o.IsSome = false ∧ o.IsNone = true) := by
    intro o
    cases o with
    | mk val => cases val <;> simp [Option.IsSome, Option.IsNone]
  refine ⟨hall, ?_, ?_, ?_, rfl, ?_⟩
  · intro o
    cases o with
    | mk val =>
      cases val with
      | none => exact Or.inl rfl
      | some v => exact Or.inr ⟨v, rfl⟩
  · intro v
    simp [Some, Option.IsSome, Option.IsNone]
  · simp [None, Option.IsSome, Option.IsNone]
  · intro dst data
    exact hall _

end option

namespace result

variable {T : Type}

/-- C14: `Some(v).ValueOr(x) = v` and `None().ValueOr(x) = x`;
`Some(v).ValueOrElse(f) = v` for every `f`, also one that panics when called,
and `None().ValueOrElse(f) = f()`; `Some(v).ValueOrDefault() = v` and
`None().ValueOrDefault()` is the zero value. The same holds for Result with
`Ok(v)` and `Err(e)` for non-nil `e`; on a Result that is Fail the fallback is
what comes back, and on one that is not Fail the outcome does not depend on the
fallback. -/
theorem C14_fallback_laws (zero v x : T) (f : Unit → Except Panic T) :
    ((option.Some v).ValueOr x = .ok v
      ∧ (option.None : option.Option T).ValueOr x = .ok x
      ∧ (option.Some v).ValueOrElse f = .ok v
      ∧ (option.Some v).ValueOrElse panicking = .ok v
      ∧ (option.None : option.Option T).ValueOrElse f = f ()
      ∧ (option.Some v).ValueOrDefault zero = .ok v
      ∧ (option.None : option.Option T).ValueOrDefault zero = .ok zero)
    ∧ ((Ok v).ValueOr x = .ok v
      ∧ (Ok v).ValueOrElse f = .ok v
      ∧ (Ok v).ValueOrElse panicking = .ok v
      ∧ (Ok v).ValueOrDefault zero = .ok v)
    ∧ (∀ e : GoError, ∃ r : Result T, Err (some e) = .ok r
      ∧ r.ValueOr x = .ok x
      ∧ r.ValueOrElse f = f ()
      ∧ r.ValueOrDefault zero = .ok zero)
    ∧ (∀ r : Result T, r.IsErr = true →
      r.ValueOr x = .ok x ∧ r.ValueOrElse f = f () ∧ r.ValueOrDefault zero = .ok zero)
    ∧ (∀ r : Result T, r.IsErr = false →
      (∀ y : T, r.ValueOr x = r.ValueOr y)
      ∧ r.ValueOrElse f = r.ValueOrElse panicking
      ∧ (∀ z : T, r.ValueOrDefault zero = r.ValueOrDefault z)) := by
  have hfail : ∀ r : Result T, r.IsErr = true →
      r.ValueOr x = .ok x ∧ r.ValueOrElse f = f () ∧ r.ValueOrDefault zero = .ok zero := by
    intro r h
    simp [Result.ValueOr, Result.ValueOrElse, Result.ValueOrDefault, h]
  refine ⟨?_, ?_, ?_, hfail, ?_⟩
  · simp [option.Some, option.None, option.Option.ValueOr, option.Option.ValueOrElse,
      option.Option.ValueOrDefault, option.Option.IsNone]
  · simp [Ok, Result.ValueOr, Result.ValueOrElse, Result.ValueOrDefault, Result.IsErr]
  · intro e
    exact ⟨{ val := none, err := some e }, Err_some e, hfail _ (by simp [Result.IsErr])⟩
  · intro r h
    simp [Result.ValueOr, Result.ValueOrElse, Result.ValueOrDefault, h]

/-- C14 at `Err(errors.New("wrong number"))` over `int` with fallback 1337, and
at `Ok(42)` with a fallback function that panics. -/
theorem C14_fallback_laws_witness :
    ({ val := none, err := some (errors.New "wrong number") } : Result Int).ValueOr 1337
        = .ok 1337
    ∧ (Ok (42 : Int)).ValueOrElse (fun _ => .ok 1337) = (Ok (42 : Int)).ValueOrElse panicking :=
  ⟨((C14_fallback_laws (0 : Int) 42 1337 (fun _ => .ok 1337)).2.2.2.1
      { val := none, err := some (errors.New "wrong number") } rfl).1,
   ((C14_fallback_laws (0 : Int) 42 1337 (fun _ => .ok 1337)).2.2.2.2 (Ok 42) rfl).2.1⟩

/-- C15: for every predicate, also one that panics, `IsSomeAnd(p)` returns true
exactly on `Some(v)` with `p(v)` true, `IsNoneAnd(q)` exactly on `None()` with
`q()` true, `IsOkAnd(p)` exactly on `Ok(v)` with `p(v)` true, and `IsErrAnd(pe)`
exactly on the Fail holding `e` with `pe(e)` true; when the primary state does
not hold, the method returns false whatever the predicate would do. -/
theorem C15_short_circuit (p : T → Except Panic Bool) (q : Unit → Except Panic Bool)
    (pe : error → Except Panic Bool) :
    (∀ o : option.Option T,
      o.IsSomeAnd p = .ok true ↔ ∃ v : T, o = option.Some v ∧ p v = .ok true)
    ∧ (∀ o : option.Option T,
      o.IsNoneAnd q = .ok true ↔ o = option.None ∧ q () = .ok true)
    ∧ (∀ r : Result T, r.IsOkAnd p = .ok true ↔ ∃ v : T, r = Ok v ∧ p v = .ok true)
    ∧ (∀ r : Result T,
      r.IsErrAnd pe = .ok true
        ↔ ∃ e : GoError, r = { val := none, err := some e } ∧ pe (some e) = .ok true)
    ∧ (∀ o : option.Option T, o.IsSome = false → o.IsSomeAnd p = .ok false)
    ∧ (∀ o : option.Option T, o.IsNone = false → o.IsNoneAnd q = .ok false)
    ∧ (∀ r : Result T, r.IsOk = false → r.IsOkAnd p = .ok false)
    ∧ (∀ r : Result T, r.IsErr = false → r.IsErrAnd pe = .ok false) := by
  refine ⟨?_, ?_, ?_, ?_, ?_, ?_, ?_, ?_⟩
  · intro o
    cases o with
    | mk val =>
      cases val <;> simp [option.Option.IsSomeAnd, option.Option.IsSome, option.Some]
  · intro o
    cases o with
    | mk val =>
      cases val <;> simp [option.Option.IsNoneAnd, option.Option.IsNone, option.None]
  · intro r
    cases r with
    | mk val err =>
      cases val <;> cases err <;> simp [Result.IsOkAnd, Result.IsOk, Ok]
  · intro r
    cases r with
    | mk val err =>
      cases val <;> cases err <;> simp [Result.IsErrAnd, Result.IsErr]
  · intro o h
    simp [option.Option.IsSomeAnd, h]
  · intro o h
    simp [option.Option.IsNoneAnd, h]
  · intro r h
    simp [Result.IsOkAnd, h]
  · intro r h
    simp [Result.IsErrAnd, h]

/-- C15 with predicates that panic when called: `None().IsSomeAnd`,
`Some(42).IsNoneAnd`, `Err(e).IsOkAnd` and `Ok(42).IsErrAnd` all return false. -/
theorem C15_short_circuit_witness :
    (option.None : option.Option Int).IsSomeAnd panicking = .ok false
    ∧ (option.Some (42 : Int)).IsNoneAnd panicking = .ok false
    ∧ ({ val := none, err := some (errors.New "wrong number") } : Result Int).IsOkAnd panicking
        = .ok false
    ∧ (Ok (42 : Int)).IsErrAnd panicking = .ok false :=
  ⟨(C15_short_circuit (T := Int) panicking panicking panicking).2.2.2.2.1 option.None rfl,
   (C15_short_circuit (T := Int) panicking panicking panicking).2.2.2.2.2.1 (option.Some 42) rfl,
   (C15_short_circuit (T := Int) panicking panicking panicking).2.2.2.2.2.2.1
      { val := none, err := some (errors.New "wrong number") } rfl,
   (C15_short_circuit (T := Int) panicking panicking panicking).2.2.2.2.2.2.2 (Ok 42) rfl⟩

end result

/-! ## Theorems: default payloads, failed deserialization, rendering, frame -/

namespace result

variable {T : Type}

/-- C16 (as stated, refuted): the zero value of the payload type `*int` is the
nil pointer. `Some(nil)` is Present, `Ok(nil)` is Ok and both serialized forms
carry the "value" key, yet deserializing them yields `None()`, which is
Absent, and `ErrNoValueError`. The zero value of the payload type `chan int`
is the nil channel: `Some(nil)` is Present and `Ok(nil)` is Ok, yet neither has
a serialized form, `MarshalJSON` returns the encoder's error. -/
theorem C16_zero_pointer_payload_is_lost :
    ((option.Some (none : Ptr Int)).IsSome = true
      ∧ (Ok (none : Ptr Int)).IsOk = true
      ∧ (option.Some (none : Ptr Int)).MarshalJSON intPtrCodec
          = .ok (Json.obj [("value", Json.null)])
      ∧ (Ok (none : Ptr Int)).MarshalJSON intPtrCodec = .ok (Json.obj [("value", Json.null)])
      ∧ ("value" : string) ∈ Json.keys (Json.obj [("value", Json.null)])
      ∧ option.Option.UnmarshalJSON intPtrCodec {} (Json.obj [("value", Json.null)])
          = (option.None, none)
      ∧ (option.None : option.Option (Ptr Int)).IsSome = false
      ∧ Result.UnmarshalJSON intPtrCodec {} (Json.obj [("value", Json.null)])
          = ({}, some ErrNoValueError))
    ∧ ((option.Some (none : ChanInt)).IsSome = true
      ∧ (Ok (none : ChanInt)).IsOk = true
      ∧ (option.Some (none : ChanInt)).MarshalJSON chanCodec
          = .error (json.unsupportedTypeError "chan int")
      ∧ (Ok (none : ChanInt)).MarshalJSON chanCodec
          = .error (json.unsupportedTypeError "chan int")) := by
  refine ⟨⟨rfl, rfl, rfl, rfl, by simp [Json.keys], rfl, rfl, by decide⟩, rfl, rfl, rfl, rfl⟩

/-- C16 (amended): for every payload `z`, the zero value included, `Some(z)` is
Present and `Ok(z)` is Ok; when `z` has an encoding `j`, both serialize to the
object whose only pair is "value" with `j`, so the key is not dropped; when
moreover `j` is not `null` and decodes back to `z`, deserializing that form
yields `Some(z)` (into any destination) and `Ok(z)` (into a fresh Result),
with no error returned. -/
theorem C16_default_payloads (c : Codec T) (z : T) :
    (option.Some z).IsSome = true
    ∧ (Ok z).IsOk = true
    ∧ (∀ j : Json, c.enc z = .ok j →
      (option.Some z).MarshalJSON c = .ok (Json.obj [("value", j)])
      ∧ (Ok z).MarshalJSON c = .ok (Json.obj [("value", j)])
      ∧ ("value" : string) ∈ Json.keys (Json.obj [("value", j)])
      ∧ (j ≠ Json.null → c.dec j = .ok z →
        (∀ dst : option.Option T,
          dst.UnmarshalJSON c (Json.obj [("value", j)]) = (option.Some z, none))
        ∧ Result.UnmarshalJSON c {} (Json.obj [("value", j)]) = (Ok z, none))) := by
  refine ⟨rfl, rfl, ?_⟩
  intro j henc
  refine ⟨option.Option.MarshalJSON_some c z j henc, Result.MarshalJSON_ok c z j henc,
    by simp [Json.keys], ?_⟩
  intro hnull hdec
  constructor
  · intro dst
    exact option.Option.UnmarshalJSON_some_obj c dst j z hnull hdec
  · rw [Result.UnmarshalJSON_value_obj c {} j z hnull hdec]
    rfl

/-- C16 (amended) at the zero value 0 of `int` and the zero value "" of
`string`. -/
theorem C16_default_payloads_witness :
    ((Ok (0 : Int)).MarshalJSON intCodec = .ok (Json.obj [("value", Json.num 0)])
      ∧ Result.UnmarshalJSON intCodec {} (Json.obj [("value", Json.num 0)]) = (Ok 0, none))
    ∧ ((option.Some ("" : string)).MarshalJSON stringCodec
        = .ok (Json.obj [("value", Json.str "")])
      ∧ option.Option.UnmarshalJSON stringCodec {} (Json.obj [("value", Json.str "")])
        = (option.Some ("" : string), none)) :=
  ⟨⟨((C16_default_payloads intCodec 0).2.2 (Json.num 0) rfl).2.1,
    (((C16_default_payloads intCodec 0).2.2 (Json.num 0) rfl).2.2.2 (by simp) rfl).2⟩,
   ⟨((C16_default_payloads stringCodec "").2.2 (Json.str "") rfl).1,
    (((C16_default_payloads stringCodec "").2.2 (Json.str "") rfl).2.2.2 (by simp) rfl).1 {}⟩⟩

/-- C17: `unwrap` of Option and of Result, given a non-nil decode error `e`,
returns `e` and leaves the receiver as it was; so when decoding `data` into
the wrapper reports `e`, `UnmarshalJSON` returns exactly `e` with the
destination unchanged. Whenever Result deserialization returns an error, in
particular `ErrNoValueError`, the destination is unchanged. Both methods
return their error: they have no panicking path. -/
theorem C17_failed_deserialize_atomic (c : Codec T) (data : Json) :
    (∀ (o : option.Option T) (opt : option.optionWrap T) (e : GoError),
      o.unwrap opt (some e) = (o, some e))
    ∧ (∀ (r : Result T) (res : resultWrap T) (e : GoError),
      r.unwrap res (some e) = (r, some e))
    ∧ (∀ (o : option.Option T) (e : GoError),
      (option.optionWrap.unmarshal c data {}).2 = some e → o.UnmarshalJSON c data = (o, some e))
    ∧ (∀ (r : Result T) (e : GoError),
      (resultWrap.unmarshal c data {}).2 = some e → r.UnmarshalJSON c data = (r, some e))
    ∧ (∀ r : Result T,
      (r.UnmarshalJSON c data).2 = some ErrNoValueError → (r.UnmarshalJSON c data).1 = r)
    ∧ (∀ (r : Result T) (e : GoError),
      (r.UnmarshalJSON c data).2 = some e → (r.UnmarshalJSON c data).1 = r) := by
  have hret : ∀ (r : Result T) (e : GoError),
      (r.UnmarshalJSON c data).2 = some e → (r.UnmarshalJSON c data).1 = r := by
    intro r e
    unfold Result.UnmarshalJSON Result.unwrap
    simp only
    split
    · intro _
      rfl
    · split
      · intro h
        simp at h
      · split
        · intro h
          simp at h
        · intro _
          rfl
  refine ⟨?_, ?_, ?_, ?_, ?_, hret⟩
  · intro o opt e
    simp [option.Option.unwrap]
  · intro r res e
    simp [Result.unwrap]
  · intro o e h
    simp [option.Option.UnmarshalJSON, option.Option.unwrap, h]
  · intro r e h
    simp [Result.UnmarshalJSON, Result.unwrap, h]
  · intro r h
    exact hret r ErrNoValueError h

/-- C17 at a destination holding `Ok(7)` (and `Some(7)`): a "value" that is a
JSON string does not decode as `int`, the type error is returned and the
destination is unchanged; the empty object returns `ErrNoValueError` and the
destination is unchanged. -/
theorem C17_failed_deserialize_atomic_witness :
    Result.UnmarshalJSON intCodec (Ok 7) (Json.obj [("value", Json.str "x")])
        = (Ok 7, some json.unmarshalTypeError)
    ∧ option.Option.UnmarshalJSON intCodec (option.Some 7) (Json.obj [("value", Json.str "x")])
        = (option.Some 7, some json.unmarshalTypeError)
    ∧ (Result.UnmarshalJSON intCodec (Ok 7) (Json.obj [])).1 = Ok 7 :=
  ⟨(C17_failed_deserialize_atomic intCodec (Json.obj [("value", Json.str "x")])).2.2.2.1
      (Ok 7) json.unmarshalTypeError rfl,
   (C17_failed_deserialize_atomic intCodec (Json.obj [("value", Json.str "x")])).2.2.1
      (option.Some 7) json.unmarshalTypeError rfl,
   (C17_failed_deserialize_atomic intCodec (Json.obj [])).2.2.2.2.1 (Ok 7) rfl⟩

end result

namespace result

variable {T : Type}

/-- C20 (as stated, refuted): `Err(errors.New("boom"))` is Fail, so `IsErr()`
holds, and `ValueOrElse` called on it with a fallback function that panics
fails with that panic. -/
theorem C20_value_or_else_fails_with_its_fallback :
    ∃ r : Result Int, Err (some (errors.New "boom")) = .ok r
      ∧ r.IsErr = true
      ∧ r.ValueOrElse panicking = .error (Panic.msg "callback called") :=
  ⟨{ val := none, err := some (errors.New "boom") }, rfl, rfl, rfl⟩

/-- C20 (amended): on the zero Result, `IsOk()` and `IsErr()` are false,
`IsOkAnd` and `IsErrAnd` return false without calling the predicate, `Error()` returns nil,
and `Value()`, `ValueOr(x)`, `ValueOrElse(f)` and `ValueOrDefault()` all fail on
the nil payload pointer; a fresh destination for which deserialization returned
`ErrNoValueError` is still the zero Result. On every Result that is Ok or Fail,
`ValueOr` and `ValueOrDefault` return, and `ValueOrElse(f)` returns the payload
when Ok and what `f` returns when Fail. -/
theorem C20_third_state (c : Codec T) (zero x : T) (f : Unit → Except Panic T)
    (p : T → Except Panic Bool) (pe : error → Except Panic Bool) :
    (({} : Result T).IsOk = false
      ∧ ({} : Result T).IsErr = false
      ∧ ({} : Result T).IsOkAnd p = .ok false
      ∧ ({} : Result T).IsErrAnd pe = .ok false
      ∧ ({} : Result T).Error = .ok none
      ∧ ({} : Result T).Value = .error Panic.nilDeref
      ∧ ({} : Result T).ValueOr x = .error Panic.nilDeref
      ∧ ({} : Result T).ValueOrElse f = .error Panic.nilDeref
      ∧ ({} : Result T).ValueOrDefault zero = .error Panic.nilDeref)
    ∧ (∀ data : Json, (Result.UnmarshalJSON c {} data).2 = some ErrNoValueError →
      (Result.UnmarshalJSON c {} data).1 = {})
    ∧ (∀ r : Result T, r.IsOk = true →
      ∃ v : T, r.val = some v ∧ r.ValueOr x = .ok v ∧ r.ValueOrElse f = .ok v
        ∧ r.ValueOrDefault zero = .ok v)
    ∧ (∀ r : Result T, r.IsErr = true →
      r.ValueOr x = .ok x ∧ r.ValueOrElse f = f () ∧ r.ValueOrDefault zero = .ok zero) := by
  refine ⟨?_, ?_, ?_, ?_⟩
  · simp [Result.IsOk, Result.IsErr, Result.IsOkAnd, Result.IsErrAnd, Result.Error,
      Result.Value, Result.ValueOr, Result.ValueOrElse, Result.ValueOrDefault]
  · intro data h
    rcases Result.unwrap_fresh (resultWrap.unmarshal c data {}).1
        (resultWrap.unmarshal c data {}).2 with
      ⟨_, hu⟩ | ⟨_, _, hu⟩ | ⟨_, _, v, _, hu⟩ | ⟨_, _, _, hu⟩
    all_goals
      unfold Result.UnmarshalJSON at h ⊢
      simp only at h ⊢
      rw [hu] at h ⊢
    · simp at h
    · simp at h
  · intro r h
    cases r with
    | mk val err =>
      cases val <;> cases err <;>
        simp_all [Result.IsOk, Result.IsErr, Result.ValueOr, Result.ValueOrElse,
          Result.ValueOrDefault]
  · intro r h
    simp [Result.ValueOr, Result.ValueOrElse, Result.ValueOrDefault, h]

/-- C20 (amended) at the fresh `Result[int]` after deserializing the empty object, at
`Ok(42)` with a fallback function that panics, and at a Fail with fallback
1337. -/
theorem C20_third_state_witness :
    (Result.UnmarshalJSON intCodec {} (Json.obj [])).1 = {}
    ∧ (∃ v : Int, (Ok (42 : Int)).val = some v ∧ (Ok (42 : Int)).ValueOr 1337 = .ok v
        ∧ (Ok (42 : Int)).ValueOrElse panicking = .ok v
        ∧ (Ok (42 : Int)).ValueOrDefault 0 = .ok v)
    ∧ ({ val := none, err := some (errors.New "boom") } : Result Int).ValueOr 1337 = .ok 1337 :=
  ⟨(C20_third_state intCodec 0 1337 panicking panicking panicking).2.1 (Json.obj []) rfl,
   (C20_third_state intCodec 0 1337 panicking panicking panicking).2.2.1 (Ok 42) rfl,
   ((C20_third_state intCodec 0 1337 panicking panicking panicking).2.2.2
      { val := none, err := some (errors.New "boom") } rfl).1⟩

end result
